import Mathlib

/-!
Shallow embedding of the gserv networking core, for checking the
specification's claims against the code.

Scope of the embedding:
* `network/msg_parser` (the length-prefix codec `MsgParser`),
* `network/tcp_conn.go` (`TCPConn` write path and destroy policy),
* `network/ws_conn.go` (`WSConn.WriteMsg`),
* `network/protobuf/protobuf.go` (`Processor` registry, `Marshal`,
  `Unmarshal`, `Register`, `SetRawHandler`),
* `chanrpc` (`Client.f`, `Call0/Call1/CallN` up to the enqueue step,
  `AsynCall`).

Conventions: Go byte slices are `List Nat` (each element a byte value),
Go `uint32`/`uint16` arithmetic is `Nat` arithmetic with explicit
`% 2^32` / `% 2^16` where Go truncates, Go maps keyed by `reflect.Type`
are association lists keyed by `Nat` (one `Nat` per distinct dynamic
type), and fallible Go functions return `Except String` or pair their
result with an `Option String` error slot.  `logs.Error` logs and
continues; `logs.Fatal` aborts (modelled by an `Option` result).
-/

namespace GServ

/-- Byte capacity of a length field of `lenMsgLen` bytes, as computed by
the `switch` in `MsgParser.SetMsgLen` (`math.MaxUint8/16/32`); the Go
`switch` has no default, leaving `max = 0` for any other width. -/
def lenFieldMax (lenMsgLen : Nat) : Nat :=
  match lenMsgLen with
  | 1 => 255
  | 2 => 65535
  | 4 => 4294967295
  | _ => 0

/-- `MsgParser` from `msg_parser` source: length-field width, min/max
payload lengths (`uint32` in Go), and the byte order flag. -/
structure MsgParser where
  lenMsgLen : Nat
  minMsgLen : Nat
  maxMsgLen : Nat
  littleEndian : Bool
deriving DecidableEq, Repr

/-- `NewMsgParser`: width 2, min 1, max 4096, big-endian. -/
def NewMsgParser : MsgParser :=
  { lenMsgLen := 2, minMsgLen := 1, maxMsgLen := 4096, littleEndian := false }

/-- The tail of `MsgParser.SetMsgLen`: the `switch` computing the
capacity of the current width followed by the two clamps of min and max
to that capacity. -/
def MsgParser.clampToWidth (q : MsgParser) : MsgParser :=
  let cap := lenFieldMax q.lenMsgLen
  let q4 := if q.minMsgLen > cap then { q with minMsgLen := cap } else q
  if q4.maxMsgLen > cap then { q4 with maxMsgLen := cap } else q4

/-- `MsgParser.SetMsgLen`: accept the width only if it is 1, 2 or 4;
treat a zero min/max argument as "keep the current value"; then clamp
both min and max to the capacity of the (possibly updated) width.
The code never compares min against max. -/
def MsgParser.SetMsgLen (p : MsgParser) (lenMsgLen minMsgLen maxMsgLen : Nat) :
    MsgParser :=
  let p1 := if lenMsgLen = 1 ∨ lenMsgLen = 2 ∨ lenMsgLen = 4 then
    { p with lenMsgLen := lenMsgLen } else p
  let p2 := if minMsgLen ≠ 0 then { p1 with minMsgLen := minMsgLen } else p1
  let p3 := if maxMsgLen ≠ 0 then { p2 with maxMsgLen := maxMsgLen } else p2
  p3.clampToWidth

/-- `MsgParser.SetByteOrder`. -/
def MsgParser.SetByteOrder (p : MsgParser) (littleEndian : Bool) : MsgParser :=
  { p with littleEndian := littleEndian }

/-- The length header written by `MsgParser.Write`: `byte(msgLen)` for
width 1, `PutUint16(uint16(msgLen))` for width 2,
`PutUint32(msgLen)` for width 4 (Go truncates `msgLen` to the field
width), in the configured byte order.  Any other width writes nothing
(unreachable for parser states built by the constructors). -/
def putLen (lenMsgLen : Nat) (littleEndian : Bool) (msgLen : Nat) : List Nat :=
  match lenMsgLen with
  | 1 => [msgLen % 256]
  | 2 =>
    let v := msgLen % 65536
    if littleEndian then [v % 256, v / 256 % 256]
    else [v / 256 % 256, v % 256]
  | 4 =>
    let v := msgLen % 4294967296
    if littleEndian then
      [v % 256, v / 256 % 256, v / 65536 % 256, v / 16777216 % 256]
    else
      [v / 16777216 % 256, v / 65536 % 256, v / 256 % 256, v % 256]
  | _ => []

/-- The length decode performed by `MsgParser.Read` on the header bytes:
`Uint16`/`Uint32` in the configured byte order, or the single byte for
width 1; the Go `switch` leaves `msgLen = 0` for any other width. -/
def getLen (lenMsgLen : Nat) (littleEndian : Bool) (bs : List Nat) : Nat :=
  match lenMsgLen with
  | 1 => bs.getD 0 0
  | 2 =>
    if littleEndian then bs.getD 0 0 + 256 * bs.getD 1 0
    else bs.getD 1 0 + 256 * bs.getD 0 0
  | 4 =>
    if littleEndian then
      bs.getD 0 0 + 256 * bs.getD 1 0 + 65536 * bs.getD 2 0 +
        16777216 * bs.getD 3 0
    else
      bs.getD 3 0 + 256 * bs.getD 2 0 + 65536 * bs.getD 1 0 +
        16777216 * bs.getD 0 0
  | _ => 0

/-- `MsgParser.Read`, with the connection modelled as the byte stream it
would deliver: read `lenMsgLen` header bytes (`io.ReadFull` fails if the
stream is shorter), decode the length, enforce max then min, then read
exactly that many payload bytes. -/
def MsgParser.Read (p : MsgParser) (stream : List Nat) :
    Except String (List Nat) :=
  if stream.length < p.lenMsgLen then .error "read length failed"
  else
    let msgLen := getLen p.lenMsgLen p.littleEndian (stream.take p.lenMsgLen)
    if msgLen > p.maxMsgLen then .error "message too long"
    else if msgLen < p.minMsgLen then .error "message too short"
    else if (stream.drop p.lenMsgLen).length < msgLen then
      .error "read data failed"
    else .ok ((stream.drop p.lenMsgLen).take msgLen)

/-- The `uint32` running sum of the parts' lengths computed by
`MsgParser.Write` (`msgLen += uint32(len(arg))`). -/
def sumLen32 (args : List (List Nat)) : Nat :=
  args.foldl (fun acc a => (acc + a.length) % 4294967296) 0

/-- `MsgParser.Write`, returning the single framed buffer handed to
`conn.Write` on success: sum the parts' lengths, enforce max then min,
then emit `[length header ++ concatenated parts]`.  An `error` result
hands nothing to the connection. -/
def MsgParser.Write (p : MsgParser) (args : List (List Nat)) :
    Except String (List Nat) :=
  let msgLen := sumLen32 args
  if msgLen > p.maxMsgLen then .error "message too long"
  else if msgLen < p.minMsgLen then .error "message too short"
  else .ok (putLen p.lenMsgLen p.littleEndian msgLen ++ args.flatten)

/-- The invariant of reachable `MsgParser` states that the code actually
maintains: the width is 1, 2 or 4 and both bounds fit the width. -/
def ParserInv (p : MsgParser) : Prop :=
  (p.lenMsgLen = 1 ∨ p.lenMsgLen = 2 ∨ p.lenMsgLen = 4) ∧
    p.minMsgLen ≤ lenFieldMax p.lenMsgLen ∧
    p.maxMsgLen ≤ lenFieldMax p.lenMsgLen

instance (p : MsgParser) : Decidable (ParserInv p) := by
  unfold ParserInv; infer_instance

/-- `TCPConn` state from `tcp_conn.go`: whether the underlying
`net.Conn` has been closed, the buffered write channel (its queued
elements and its capacity; a `none` element is the `nil` close
sentinel), whether that channel has been `close`d, the `closeFlag`, and
the attached parser. -/
structure TCPConn where
  connClosed : Bool
  writeChan : List (Option (List Nat))
  writeCap : Nat
  chanClosed : Bool
  closeFlag : Bool
  msgParser : MsgParser
deriving DecidableEq, Repr

/-- `TCPConn.doDestroy`: `SetLinger(0)` and close the socket, then — if
the `closeFlag` is not yet set — close the write channel and set the
flag.  Closing a Go channel does not discard its queued elements. -/
def TCPConn.doDestroy (c : TCPConn) : TCPConn :=
  let c1 := { c with connClosed := true }
  if !c1.closeFlag then { c1 with chanClosed := true, closeFlag := true }
  else c1

/-- `TCPConn.Destroy` (takes the lock, then `doDestroy`). -/
def TCPConn.Destroy (c : TCPConn) : TCPConn := c.doDestroy

/-- `TCPConn.doWrite`: if the write channel is at capacity, destroy the
connection and drop the buffer; otherwise enqueue it. -/
def TCPConn.doWrite (c : TCPConn) (b : Option (List Nat)) : TCPConn :=
  if c.writeChan.length = c.writeCap then c.doDestroy
  else { c with writeChan := c.writeChan ++ [b] }

/-- `TCPConn.Write`: ignore the call when the `closeFlag` is set or the
buffer is `nil`; otherwise `doWrite`. -/
def TCPConn.Write (c : TCPConn) (b : Option (List Nat)) : TCPConn :=
  if c.closeFlag || b.isNone then c else c.doWrite b

/-- `TCPConn.Close`: idempotent; enqueue the `nil` sentinel via
`doWrite` and set the `closeFlag`. -/
def TCPConn.Close (c : TCPConn) : TCPConn :=
  if c.closeFlag then c
  else
    let c1 := c.doWrite none
    { c1 with closeFlag := true }

/-- `TCPConn.WriteMsg`: `msgParser.Write(tcpConn, args...)` — the parser
validates and frames the parts, and on success hands the one framed
buffer to `TCPConn.Write`.  Returns the updated connection and the
parser error, if any. -/
def TCPConn.WriteMsg (c : TCPConn) (args : List (List Nat)) :
    TCPConn × Option String :=
  match c.msgParser.Write args with
  | .error e => (c, some e)
  | .ok buf => (c.Write (some buf), none)

/-- `WSConn` state from `ws_conn.go`: the write channel (elements,
capacity, closed flag as for TCP), the `closeFlag`, the socket-closed
flag, and the configured `maxMsgLen` (the only length bound the
WebSocket variant has). -/
structure WSConn where
  connClosed : Bool
  writeChan : List (Option (List Nat))
  writeCap : Nat
  chanClosed : Bool
  closeFlag : Bool
  maxMsgLen : Nat
deriving DecidableEq, Repr

/-- `WSConn.doDestroy` (same shape as the TCP variant). -/
def WSConn.doDestroy (c : WSConn) : WSConn :=
  let c1 := { c with connClosed := true }
  if !c1.closeFlag then { c1 with chanClosed := true, closeFlag := true }
  else c1

/-- `WSConn.doWrite`: destroy when the channel is at capacity, else
enqueue. -/
def WSConn.doWrite (c : WSConn) (b : Option (List Nat)) : WSConn :=
  if c.writeChan.length = c.writeCap then c.doDestroy
  else { c with writeChan := c.writeChan ++ [b] }

/-- `WSConn.WriteMsg`: return `nil` silently when closed; sum the parts'
lengths as `uint32`; reject `> maxMsgLen` as "message too long" and
`< 1` as "message too short"; enqueue the single part directly, or the
merged buffer when there are several parts. -/
def WSConn.WriteMsg (c : WSConn) (args : List (List Nat)) :
    WSConn × Option String :=
  if c.closeFlag then (c, none)
  else
    let msgLen := sumLen32 args
    if msgLen > c.maxMsgLen then (c, some "message too long")
    else if msgLen < 1 then (c, some "message too short")
    else if args.length = 1 then (c.doWrite (some (args.getD 0 [])), none)
    else (c.doWrite (some args.flatten), none)

/-- A protobuf message value.  Modelled from the spec: the third-party
protobuf codec (`google.golang.org/protobuf/proto`) is not part of this
repository, so a message is abstracted to its dynamic type (`reflect.Type`,
one `Nat` per distinct type) together with its protobuf wire bytes, and
`proto.Marshal` / `proto.Unmarshal` are the projections below — an
injective codec that round-trips, as the spec assumes of protobuf. -/
structure PbMsg where
  typ : Nat
  body : List Nat
deriving DecidableEq, Repr

/-- `proto.Marshal` under the abstraction of `PbMsg`. -/
def protoMarshal (m : PbMsg) : List Nat := m.body

/-- `proto.Unmarshal` into a freshly allocated value of the registered
type, under the abstraction of `PbMsg`. -/
def protoUnmarshal (typ : Nat) (data : List Nat) : PbMsg := ⟨typ, data⟩

/-- `MsgInfo` entry of the protobuf `Processor`: the registered type and
whether a raw handler has been installed (`msgHandler`/`msgRouter` do
not affect `Marshal`/`Unmarshal` and are omitted). -/
structure MsgInfo where
  msgType : Nat
  hasRawHandler : Bool
deriving DecidableEq, Repr

/-- Lookup in the `msgID` map (`map[reflect.Type]uint16`), modelled as
an association list. -/
def lookupID (m : List (Nat × Nat)) (t : Nat) : Option Nat :=
  match m with
  | [] => none
  | (a, b) :: rest => if a = t then some b else lookupID rest t

/-- Insert/overwrite in the `msgID` map. -/
def insertID (m : List (Nat × Nat)) (t v : Nat) : List (Nat × Nat) :=
  match m with
  | [] => [(t, v)]
  | (a, b) :: rest =>
    if a = t then (t, v) :: rest else (a, b) :: insertID rest t v

/-- The protobuf `Processor`: byte order, the `msgInfo` slice and the
type→id map. -/
structure Processor where
  littleEndian : Bool
  msgInfo : List MsgInfo
  msgID : List (Nat × Nat)
deriving DecidableEq, Repr

/-- `NewProcessor` (big-endian, empty registry). -/
def NewProcessor : Processor :=
  { littleEndian := false, msgInfo := [], msgID := [] }

/-- The result of `Processor.Unmarshal`: either the `MsgRaw{id, bytes}`
marker or a decoded protobuf message. -/
inductive UnmarshalResult where
  | raw (msgID : Nat) (msgRawData : List Nat)
  | pb (m : PbMsg)
deriving DecidableEq, Repr

/-- `PutUint16` of a value already below `2^16` (ids are produced with
`uint16` truncation), in the configured byte order. -/
def putU16 (littleEndian : Bool) (v : Nat) : List Nat :=
  if littleEndian then [v % 256, v / 256 % 256]
  else [v / 256 % 256, v % 256]

/-- `Uint16` of the first two bytes of `data`, in the configured byte
order. -/
def getU16 (littleEndian : Bool) (data : List Nat) : Nat :=
  if littleEndian then data.getD 0 0 + 256 * data.getD 1 0
  else data.getD 1 0 + 256 * data.getD 0 0

/-- `Processor.Register`: on a duplicate type or on a registry already
holding `math.MaxUint16` entries the code only calls `logs.Error` (which
logs and returns, unlike `logs.Fatal`) and then proceeds unconditionally:
it appends a fresh `MsgInfo`, computes `id = uint16(len(msgInfo)-1)` and
overwrites the map entry for the type.  Returns the new state and the
id. -/
def Processor.Register (p : Processor) (t : Nat) : Processor × Nat :=
  let msgInfo := p.msgInfo ++ [{ msgType := t, hasRawHandler := false }]
  let id := (msgInfo.length - 1) % 65536
  ({ p with msgInfo := msgInfo, msgID := insertID p.msgID t id }, id)

/-- `Processor.SetRawHandler`: `logs.Fatal` (process abort, modelled as
`none`) when the id is not a registered index; otherwise mark the entry
as having a raw handler. -/
def Processor.SetRawHandler (p : Processor) (id : Nat) : Option Processor :=
  if id < p.msgInfo.length then
    some { p with
      msgInfo := p.msgInfo.set id
        { (p.msgInfo.getD id ⟨0, false⟩) with hasRawHandler := true } }
  else none

/-- `Processor.Unmarshal`: reject inputs shorter than 2 bytes; decode
the leading 2-byte id; reject `id >= uint16(len(msgInfo))`; if the
entry has a raw handler return `MsgRaw{id, data[2:]}` without touching
the payload; otherwise protobuf-decode the payload into a fresh value of
the entry's type. -/
def Processor.Unmarshal (p : Processor) (data : List Nat) :
    Except String UnmarshalResult :=
  if data.length < 2 then .error "protobuf data is too short"
  else
    let id := getU16 p.littleEndian data
    if id ≥ p.msgInfo.length % 65536 then .error "message ID is not registered"
    else
      let i := p.msgInfo.getD id ⟨0, false⟩
      if i.hasRawHandler then .ok (.raw id (data.drop 2))
      else .ok (.pb (protoUnmarshal i.msgType (data.drop 2)))

/-- `Processor.Marshal`: look the type up in `msgID` (error if absent),
then return the two parts `[id bytes, protobuf payload]`. -/
def Processor.Marshal (p : Processor) (m : PbMsg) :
    Except String (List (List Nat)) :=
  match lookupID p.msgID m.typ with
  | none => .error "message type is not registered"
  | some id => .ok [putU16 p.littleEndian id, protoMarshal m]

namespace ChanRPC

/-- The shape of a function registered with a chanrpc `Server`:
`func([]any)`, `func([]any) any`, `func([]any) []any`, or any other
(freeform) signature. -/
inductive RFn where
  | f0
  | f1
  | fN
  | fOther
deriving DecidableEq, Repr

/-- The shape of an `AsynCall` callback: `func(error)`,
`func(any, error)` or `func([]any, error)`. -/
inductive CbShape where
  | cb0
  | cb1
  | cbN
deriving DecidableEq, Repr

/-- A `CallInfo` as enqueued on a server's `ChanCall`: the resolved
function, the positional arguments (opaque here), whether a return
channel was attached, and the callback for async calls. -/
structure CallInfo where
  f : RFn
  args : List Nat
  hasChanRet : Bool
  cb : Option CbShape
deriving DecidableEq, Repr

/-- A `RetInfo` as delivered on a return channel: the error (if any) and
the original callback. -/
structure RetInfo where
  err : Option String
  cb : Option CbShape
deriving DecidableEq, Repr

/-- A chanrpc `Server`: the `id → function` table (association list over
`Nat` ids), and its buffered `ChanCall` (queued calls, capacity, closed
flag). -/
structure Server where
  functions : List (Nat × RFn)
  chanCall : List CallInfo
  chanCap : Nat
  chanClosed : Bool
deriving DecidableEq, Repr

/-- Lookup in the `functions` map (a Go map read returns the zero value,
i.e. `nil`, for a missing key — hence `Option`). -/
def lookupFn (m : List (Nat × RFn)) (id : Nat) : Option RFn :=
  match m with
  | [] => none
  | (a, b) :: rest => if a = id then some b else lookupFn rest id

/-- A chanrpc `Client`: its asynchronous return channel (queued
completions and capacity `cap(ChanAsynRet)`) and the outstanding-call
counter.  The 1-slot synchronous channel and the attached-server pointer
are handled at the call sites. -/
structure Client where
  chanAsynRet : List RetInfo
  asynCap : Nat
  pendingAsynCall : Nat
deriving DecidableEq, Repr

/-- `Client.f`: fail when no server is attached, when the id has no
registered function, or when the registered function's shape does not
match the call variant (`n = 0/1/2` for void / single value / value
list); otherwise return the function. -/
def Client.fCheck (attached : Bool) (functions : List (Nat × RFn))
    (id n : Nat) : Except String RFn :=
  if !attached then .error "server not attached"
  else
    match lookupFn functions id with
    | none => .error "function not registered"
    | some f =>
      let ok := match n, f with
        | 0, .f0 => true
        | 1, .f1 => true
        | 2, .fN => true
        | _, _ => false
      if ok then .ok f else .error "return type mismatch"

/-- The blocking enqueue step shared by `Call0/Call1/CallN`
(`c.call(ci, true)`): a send on a closed channel panics, which `call`
recovers into an error; otherwise the call is appended to the server's
`ChanCall`.  (The subsequent blocking receive on `chanSyncRet` needs the
server goroutine and is outside this sequential model; the claims below
only concern what happens up to the enqueue.) -/
def enqueueBlocking (srv : Server) (ci : CallInfo) : Server × Option String :=
  if srv.chanClosed then (srv, some "send on closed channel")
  else ({ srv with chanCall := srv.chanCall ++ [ci] }, none)

/-- `Client.Call0` up to its enqueue: validate via `Client.f` with
`n = 0` and return the error without touching the server's channel, or
enqueue the `CallInfo` carrying the synchronous return channel. -/
def Client.Call0 (attached : Bool) (srv : Server) (id : Nat)
    (args : List Nat) : Server × Option String :=
  match Client.fCheck attached srv.functions id 0 with
  | .error e => (srv, some e)
  | .ok f => enqueueBlocking srv ⟨f, args, true, none⟩

/-- `Client.Call1` up to its enqueue (shape check with `n = 1`). -/
def Client.Call1 (attached : Bool) (srv : Server) (id : Nat)
    (args : List Nat) : Server × Option String :=
  match Client.fCheck attached srv.functions id 1 with
  | .error e => (srv, some e)
  | .ok f => enqueueBlocking srv ⟨f, args, true, none⟩

/-- `Client.CallN` up to its enqueue (shape check with `n = 2`). -/
def Client.CallN (attached : Bool) (srv : Server) (id : Nat)
    (args : List Nat) : Server × Option String :=
  match Client.fCheck attached srv.functions id 2 with
  | .error e => (srv, some e)
  | .ok f => enqueueBlocking srv ⟨f, args, true, none⟩

/-- Result of `Client.AsynCall`: the updated client and server, plus the
callbacks `execCb` ran synchronously inside the call (each with the
error it was given). -/
structure AsynResult where
  client : Client
  srv : Server
  immediateCb : List (CbShape × Option String)
deriving DecidableEq, Repr

/-- `Client.AsynCall` (with the final `_args` element already split off
as the callback `cb`, whose shape fixes `n`): if
`pendingAsynCall >= cap(ChanAsynRet)` run the callback immediately with
a `too many calls` error and change nothing else; otherwise run
`asynCall` — on a validation error or a failed non-blocking enqueue
(closed channel panic recovered, or `ChanCall` full) push the error
`RetInfo` onto `ChanAsynRet`, on success append the `CallInfo` to the
server's `ChanCall` — and then increment `pendingAsynCall`. -/
def Client.AsynCall (c : Client) (attached : Bool) (srv : Server) (id : Nat)
    (args : List Nat) (cb : CbShape) : AsynResult :=
  let n : Nat := match cb with
    | .cb0 => 0
    | .cb1 => 1
    | .cbN => 2
  if c.pendingAsynCall ≥ c.asynCap then
    { client := c, srv := srv, immediateCb := [(cb, some "too many calls")] }
  else
    let step : Client × Server :=
      match Client.fCheck attached srv.functions id n with
      | .error e =>
        ({ c with chanAsynRet := c.chanAsynRet ++ [⟨some e, some cb⟩] }, srv)
      | .ok f =>
        if srv.chanClosed then
          ({ c with chanAsynRet := c.chanAsynRet ++
              [⟨some "send on closed channel", some cb⟩] }, srv)
        else if srv.chanCall.length = srv.chanCap then
          ({ c with chanAsynRet := c.chanAsynRet ++
              [⟨some "chanrpc channel full", some cb⟩] }, srv)
        else
          (c, { srv with chanCall := srv.chanCall ++ [⟨f, args, true, some cb⟩] })
    { client := { step.1 with pendingAsynCall := step.1.pendingAsynCall + 1 },
      srv := step.2, immediateCb := [] }

end ChanRPC

/-! ## Helper lemmas -/

/-- The true (untruncated) total length of a parts list. -/
def totalLen (args : List (List Nat)) : Nat := (args.map List.length).sum

theorem sumLen32_foldl_aux (args : List (List Nat)) :
    ∀ acc : Nat, acc < 4294967296 →
      args.foldl (fun a b => (a + b.length) % 4294967296) acc =
        (acc + (args.map List.length).sum) % 4294967296 := by
  induction args with
  | nil =>
    intro acc h
    simp [Nat.mod_eq_of_lt h]
  | cons a as ih =>
    intro acc h
    have h2 : (acc + a.length) % 4294967296 < 4294967296 :=
      Nat.mod_lt _ (by norm_num)
    simp only [List.foldl_cons, List.map_cons, List.sum_cons]
    rw [ih _ h2, Nat.mod_add_mod]
    omega

theorem sumLen32_eq (args : List (List Nat)) :
    sumLen32 args = totalLen args % 4294967296 := by
  simpa [totalLen] using sumLen32_foldl_aux args 0 (by norm_num)

theorem sumLen32_eq_of_lt (args : List (List Nat))
    (h : totalLen args < 4294967296) : sumLen32 args = totalLen args := by
  rw [sumLen32_eq, Nat.mod_eq_of_lt h]

theorem putLen_length (w : Nat) (hw : w = 1 ∨ w = 2 ∨ w = 4) (e : Bool)
    (L : Nat) : (putLen w e L).length = w := by
  rcases hw with h | h | h <;> subst h <;> cases e <;> simp [putLen]

theorem getLen_putLen (w : Nat) (hw : w = 1 ∨ w = 2 ∨ w = 4) (e : Bool)
    (L : Nat) (hL : L ≤ lenFieldMax w) :
    getLen w e (putLen w e L) = L := by
  rcases hw with h | h | h <;> subst h <;> cases e <;>
    simp [putLen, getLen, lenFieldMax] at hL ⊢ <;> omega

theorem clampToWidth_inv (q : MsgParser)
    (hq : q.lenMsgLen = 1 ∨ q.lenMsgLen = 2 ∨ q.lenMsgLen = 4) :
    ParserInv q.clampToWidth := by
  unfold ParserInv MsgParser.clampToWidth
  refine ⟨?_, ?_, ?_⟩ <;> dsimp only <;> split_ifs <;> simp_all

theorem setMsgLen_inv (p : MsgParser) (a b c : Nat)
    (hp : p.lenMsgLen = 1 ∨ p.lenMsgLen = 2 ∨ p.lenMsgLen = 4) :
    ParserInv (p.SetMsgLen a b c) := by
  unfold MsgParser.SetMsgLen
  dsimp only
  apply clampToWidth_inv
  split_ifs <;> simp_all

/-! ## Claims -/

/-- C4 counterexample: from the freshly constructed parser, the single
call `SetMsgLen(2, 10, 5)` produces `minMsgLen = 10 > 5 = maxMsgLen`,
so the claimed invariant `minMsgLen ≤ maxMsgLen` does not survive
arbitrary `SetMsgLen` arguments. -/
theorem setMsgLen_min_gt_max :
    ¬ ((NewMsgParser.SetMsgLen 2 10 5).minMsgLen ≤
        (NewMsgParser.SetMsgLen 2 10 5).maxMsgLen) := by decide

/-- C4 (amended): for every `MsgParser` state reachable through
`NewMsgParser` and any sequence of `SetMsgLen` calls with arbitrary
arguments, the width stays in `{1, 2, 4}` and both `minMsgLen` and
`maxMsgLen` stay `≤ 2^(8·lenMsgLen) − 1`; the relation
`minMsgLen ≤ maxMsgLen` is not maintained (see the counterexample). -/
theorem msgparser_reachable_inv (calls : List (Nat × Nat × Nat)) :
    ParserInv (calls.foldl
      (fun p c => p.SetMsgLen c.1 c.2.1 c.2.2) NewMsgParser) := by
  suffices h : ∀ (cs : List (Nat × Nat × Nat)) (p : MsgParser),
      ParserInv p →
      ParserInv (cs.foldl (fun q c => q.SetMsgLen c.1 c.2.1 c.2.2) p) by
    exact h calls NewMsgParser (by decide)
  intro cs
  induction cs with
  | nil => intro p hp; exact hp
  | cons c rest ih =>
    intro p hp
    exact ih _ (setMsgLen_inv p c.1 c.2.1 c.2.2 hp.1)

/-- C1: for a parser whose width is 1, 2 or 4 and whose `maxMsgLen` fits
the width (the invariant every reachable parser satisfies), writing any
parts list whose total length lies in `[minMsgLen, maxMsgLen]` produces
one framed buffer, and reading a stream that starts with that buffer
returns exactly the written payload. -/
theorem framing_roundtrip (p : MsgParser) (args : List (List Nat))
    (rest : List Nat)
    (hw : p.lenMsgLen = 1 ∨ p.lenMsgLen = 2 ∨ p.lenMsgLen = 4)
    (hmax : p.maxMsgLen ≤ lenFieldMax p.lenMsgLen)
    (hmin : p.minMsgLen ≤ totalLen args)
    (hlen : totalLen args ≤ p.maxMsgLen) :
    p.Write args =
      .ok (putLen p.lenMsgLen p.littleEndian (totalLen args) ++
        args.flatten) ∧
    p.Read (putLen p.lenMsgLen p.littleEndian (totalLen args) ++
        args.flatten ++ rest) = .ok args.flatten := by
  have hcap : lenFieldMax p.lenMsgLen ≤ 4294967295 := by
    rcases hw with h | h | h <;> rw [h] <;> simp [lenFieldMax]
  have hfit : totalLen args < 4294967296 := by omega
  have hsum : sumLen32 args = totalLen args := sumLen32_eq_of_lt args hfit
  have hLcap : totalLen args ≤ lenFieldMax p.lenMsgLen := le_trans hlen hmax
  have hput : (putLen p.lenMsgLen p.littleEndian (totalLen args)).length =
      p.lenMsgLen := putLen_length _ hw _ _
  have hflat : args.flatten.length = totalLen args := by
    simp [totalLen, List.length_flatten]
  constructor
  · unfold MsgParser.Write
    rw [hsum]
    rw [if_neg (by omega), if_neg (by omega)]
  · unfold MsgParser.Read
    have hstream : (putLen p.lenMsgLen p.littleEndian (totalLen args) ++
        args.flatten ++ rest).length ≥ p.lenMsgLen := by
      simp only [List.length_append]
      omega
    rw [if_neg (by omega)]
    have htake : (putLen p.lenMsgLen p.littleEndian (totalLen args) ++
        args.flatten ++ rest).take p.lenMsgLen =
        putLen p.lenMsgLen p.littleEndian (totalLen args) := by
      rw [List.append_assoc, List.take_left' hput]
    have hdrop : (putLen p.lenMsgLen p.littleEndian (totalLen args) ++
        args.flatten ++ rest).drop p.lenMsgLen = args.flatten ++ rest := by
      rw [List.append_assoc, List.drop_left' hput]
    rw [htake, getLen_putLen _ hw _ _ hLcap, hdrop]
    rw [if_neg (by omega)]
    rw [if_neg (by omega)]
    rw [if_neg (by simp only [List.length_append]; omega)]
    rw [List.take_left' hflat]

/-- C1 witness: the default parser round-trips the 5-byte payload
`"hello"`. -/
theorem framing_roundtrip_witness :
    NewMsgParser.Write [[104, 101, 108, 108, 111]] =
      .ok (putLen NewMsgParser.lenMsgLen NewMsgParser.littleEndian
        (totalLen [[104, 101, 108, 108, 111]]) ++
        [[104, 101, 108, 108, 111]].flatten) ∧
    NewMsgParser.Read (putLen NewMsgParser.lenMsgLen
        NewMsgParser.littleEndian (totalLen [[104, 101, 108, 108, 111]]) ++
        [[104, 101, 108, 108, 111]].flatten ++ []) =
      .ok [[104, 101, 108, 108, 111]].flatten :=
  framing_roundtrip NewMsgParser [[104, 101, 108, 108, 111]] []
    (by decide) (by decide) (by decide) (by decide)

/-- C6: for a parser with `minMsgLen ≤ maxMsgLen` (the spec's data-model
invariant) and a representable total length, a too-long parts list makes
`MsgParser.Write` fail with "message too long" and a too-short one with
"message too short"; in both cases `TCPConn.WriteMsg` leaves the
connection untouched — no bytes are handed to it. -/
theorem write_length_enforcement (c : TCPConn) (args : List (List Nat))
    (hfit : totalLen args < 4294967296) :
    (totalLen args > c.msgParser.maxMsgLen →
      c.msgParser.Write args = .error "message too long" ∧
      c.WriteMsg args = (c, some "message too long")) ∧
    (c.msgParser.minMsgLen ≤ c.msgParser.maxMsgLen →
      totalLen args < c.msgParser.minMsgLen →
      c.msgParser.Write args = .error "message too short" ∧
      c.WriteMsg args = (c, some "message too short")) := by
  have hsum : sumLen32 args = totalLen args := sumLen32_eq_of_lt args hfit
  constructor
  · intro hlong
    have hwrite : c.msgParser.Write args = .error "message too long" := by
      unfold MsgParser.Write
      rw [hsum, if_pos (by omega)]
    exact ⟨hwrite, by unfold TCPConn.WriteMsg; rw [hwrite]⟩
  · intro hmm hshort
    have hwrite : c.msgParser.Write args = .error "message too short" := by
      unfold MsgParser.Write
      rw [hsum, if_neg (by omega), if_pos (by omega)]
    exact ⟨hwrite, by unfold TCPConn.WriteMsg; rw [hwrite]⟩

/-- A concrete open TCP connection whose parser accepts lengths in
`[2, 3]` (width 1), used as witness input. -/
def tcpConnSmall : TCPConn :=
  ⟨false, [], 8, false, false, ⟨1, 2, 3, false⟩⟩

/-- C6 witness: on `tcpConnSmall`, a 4-byte payload is rejected as too
long and a 1-byte payload as too short, both without touching the
connection. -/
theorem write_length_enforcement_witness :
    (tcpConnSmall.msgParser.Write [[1, 1, 1, 1]] =
        .error "message too long" ∧
      tcpConnSmall.WriteMsg [[1, 1, 1, 1]] =
        (tcpConnSmall, some "message too long")) ∧
    (tcpConnSmall.msgParser.Write [[1]] = .error "message too short" ∧
      tcpConnSmall.WriteMsg [[1]] = (tcpConnSmall, some "message too short")) :=
  ⟨(write_length_enforcement tcpConnSmall [[1, 1, 1, 1]] (by decide)).1
      (by decide),
    (write_length_enforcement tcpConnSmall [[1]] (by decide)).2
      (by decide) (by decide)⟩

/-- The state `TCPConn.doDestroy` leaves an open connection in: socket
closed, write channel closed, `closeFlag` set, queue contents intact. -/
def TCPConn.destroyed (c : TCPConn) : TCPConn :=
  { c with connClosed := true, chanClosed := true, closeFlag := true }

/-- C5: when the outbound queue is at capacity on an open connection,
each write path — `TCPConn.Write`, the sentinel enqueue of
`TCPConn.Close`, and `TCPConn.WriteMsg` whenever the parser accepts the
message — forcibly destroys the connection (socket closed, write
channel closed, `closeFlag` set) and enqueues nothing (`writeChan` is
unchanged in the result). -/
theorem queue_full_destroys (c : TCPConn) (b : List Nat)
    (args : List (List Nat)) (buf : List Nat)
    (hfull : c.writeChan.length = c.writeCap)
    (hopen : c.closeFlag = false) :
    c.Write (some b) = c.destroyed ∧
    c.Close = c.destroyed ∧
    (c.msgParser.Write args = .ok buf →
      c.WriteMsg args = (c.destroyed, none)) := by
  have hdw : ∀ x, c.doWrite x = c.destroyed := by
    intro x
    unfold TCPConn.doWrite TCPConn.doDestroy TCPConn.destroyed
    rw [if_pos hfull]
    simp [hopen]
  refine ⟨?_, ?_, ?_⟩
  · unfold TCPConn.Write
    rw [if_neg (by simp [hopen])]
    exact hdw _
  · unfold TCPConn.Close
    rw [if_neg (by simp [hopen]), hdw none]
    simp [TCPConn.destroyed]
  · intro hok
    unfold TCPConn.WriteMsg
    rw [hok]
    dsimp only
    unfold TCPConn.Write
    rw [if_neg (by simp [hopen])]
    rw [hdw _]

/-- A concrete open TCP connection with the default parser whose
one-slot queue is full. -/
def tcpConnFull : TCPConn :=
  ⟨false, [some [1]], 1, false, false, NewMsgParser⟩

/-- C5 witness: on `tcpConnFull`, `Write`, `Close` and a parsed
`WriteMsg` all destroy the connection without enqueueing. -/
theorem queue_full_destroys_witness :
    tcpConnFull.Write (some [2]) = tcpConnFull.destroyed ∧
    tcpConnFull.Close = tcpConnFull.destroyed ∧
    (tcpConnFull.msgParser.Write [[3]] = .ok [0, 1, 3] →
      tcpConnFull.WriteMsg [[3]] = (tcpConnFull.destroyed, none)) :=
  queue_full_destroys tcpConnFull [2] [[3]] [0, 1, 3] (by decide) (by decide)

/-- C10: on an open WebSocket connection, a parts list whose total
length is 0 is rejected by `WSConn.WriteMsg` with "message too short"
and nothing is enqueued, whatever `maxMsgLen` is configured. -/
theorem ws_zero_length_rejected (c : WSConn) (args : List (List Nat))
    (hopen : c.closeFlag = false) (hzero : totalLen args = 0) :
    c.WriteMsg args = (c, some "message too short") := by
  have hsum : sumLen32 args = 0 := by
    rw [sumLen32_eq_of_lt args (by omega), hzero]
  unfold WSConn.WriteMsg
  rw [if_neg (by simp [hopen])]
  rw [hsum]
  rw [if_neg (by omega), if_pos (by omega)]

/-- A concrete open WebSocket connection. -/
def wsConnOpen : WSConn :=
  ⟨false, [], 4, false, false, 100⟩

/-- C10 witness: two empty parts are rejected as too short. -/
theorem ws_zero_length_rejected_witness :
    wsConnOpen.WriteMsg [[], []] = (wsConnOpen, some "message too short") :=
  ws_zero_length_rejected wsConnOpen [[], []] (by decide) (by decide)

/-- A processor holding `math.MaxUint16` registered entries, for probing
the registration cap. -/
def procAtCap : Processor :=
  ⟨false, List.replicate 65535 ⟨0, false⟩, []⟩

theorem procAtCap_len : procAtCap.msgInfo.length = 65535 := by
  rw [show procAtCap.msgInfo =
      List.replicate 65535 (⟨0, false⟩ : MsgInfo) from rfl,
    List.length_replicate]

theorem procAtCap_register_unfold :
    (procAtCap.Register 9).1.msgInfo = procAtCap.msgInfo ++ [⟨9, false⟩] := rfl

/-- C3: `Register` does not reject anything.  On a duplicate type it
appends a second `MsgInfo` entry and remaps the type to the new id, and
on a registry already holding `2^16 − 1` entries it still appends — in
both cases the registry changes, because the duplicate and cap checks
only call `logs.Error` and fall through (even though `Register`'s own
doc comment says it panics in both cases). -/
theorem register_rejects_nothing :
    ((NewProcessor.Register 7).1.Register 7).1.msgInfo.length = 2 ∧
    lookupID ((NewProcessor.Register 7).1.Register 7).1.msgID 7 = some 1 ∧
    (procAtCap.Register 9).1.msgInfo.length = 65536 := by
  refine ⟨by decide, by decide, ?_⟩
  rw [procAtCap_register_unfold, List.length_append, procAtCap_len,
    List.length_singleton]

/-- C7: `Processor.Unmarshal` (with the registry smaller than `2^16`,
as every realistic registry is) rejects inputs shorter than 2 bytes,
rejects a leading id with no registered entry, and for an id whose entry
has a raw handler returns the `MsgRaw` marker carrying the id and the
remaining bytes, without protobuf-decoding the payload. -/
theorem unmarshal_truncation_unknown_raw (p : Processor) (data : List Nat)
    (hsz : p.msgInfo.length < 65536) :
    (data.length < 2 → p.Unmarshal data = .error "protobuf data is too short") ∧
    (2 ≤ data.length → p.msgInfo.length ≤ getU16 p.littleEndian data →
      p.Unmarshal data = .error "message ID is not registered") ∧
    (2 ≤ data.length → getU16 p.littleEndian data < p.msgInfo.length →
      (p.msgInfo.getD (getU16 p.littleEndian data) ⟨0, false⟩).hasRawHandler =
        true →
      p.Unmarshal data =
        .ok (.raw (getU16 p.littleEndian data) (data.drop 2))) := by
  have hmod : p.msgInfo.length % 65536 = p.msgInfo.length :=
    Nat.mod_eq_of_lt hsz
  refine ⟨?_, ?_, ?_⟩
  · intro hshort
    unfold Processor.Unmarshal
    rw [if_pos hshort]
  · intro hlen hid
    unfold Processor.Unmarshal
    rw [if_neg (by omega), if_pos (by omega)]
  · intro hlen hid hraw
    unfold Processor.Unmarshal
    rw [if_neg (by omega), if_neg (by omega)]
    simp only [hraw, if_pos]

/-- The processor obtained by registering type 5 and installing a raw
handler on its id 0; reachable as
`NewProcessor.Register 5` then `SetRawHandler 0`. -/
def procRaw : Processor :=
  ⟨false, [⟨5, true⟩], [(5, 0)]⟩

/-- C7 witness: on `procRaw`, a 1-byte input is rejected as truncated,
id 3 is rejected as unregistered, and id 0 (raw) yields the
`MsgRaw` marker with the undecoded tail. -/
theorem unmarshal_truncation_unknown_raw_witness :
    procRaw.Unmarshal [1] = .error "protobuf data is too short" ∧
    procRaw.Unmarshal [0, 3] = .error "message ID is not registered" ∧
    procRaw.Unmarshal [0, 0, 9] = .ok (.raw 0 [9]) :=
  ⟨(unmarshal_truncation_unknown_raw procRaw [1] (by decide)).1 (by decide),
    (unmarshal_truncation_unknown_raw procRaw [0, 3] (by decide)).2.1
      (by decide) (by decide),
    (unmarshal_truncation_unknown_raw procRaw [0, 0, 9] (by decide)).2.2
      (by decide) (by decide) (by decide)⟩

/-- C2 counterexample: the message type 5 is registered (id 0) on
`procRaw`, which is reachable by `Register` followed by
`SetRawHandler 0`; `Marshal` of the message `⟨5, [9]⟩` succeeds, but
`Unmarshal` of the concatenated parts returns the `MsgRaw` marker, not a
message equal to the original — so the round trip fails as soon as the
id has a raw handler. -/
theorem marshal_unmarshal_not_id_with_raw :
    (NewProcessor.Register 5).1.SetRawHandler 0 = some procRaw ∧
    lookupID procRaw.msgID 5 = some 0 ∧
    procRaw.Marshal ⟨5, [9]⟩ = .ok [[0, 0], [9]] ∧
    procRaw.Unmarshal [[0, 0], [9]].flatten = .ok (.raw 0 [9]) ∧
    UnmarshalResult.raw 0 [9] ≠ .pb ⟨5, [9]⟩ :=
  ⟨rfl, rfl, rfl, rfl, by decide⟩

/-- C2 (amended): for every registered message whose id's entry has no
raw handler (and a registry smaller than `2^16`), `Unmarshal` of the
concatenation of the parts produced by `Marshal` returns a message equal
in value to the original. -/
theorem marshal_unmarshal_id (p : Processor) (m : PbMsg) (id : Nat)
    (hlook : lookupID p.msgID m.typ = some id)
    (hid : id < p.msgInfo.length)
    (hsz : p.msgInfo.length < 65536)
    (htyp : (p.msgInfo.getD id ⟨0, false⟩).msgType = m.typ)
    (hraw : (p.msgInfo.getD id ⟨0, false⟩).hasRawHandler = false) :
    ∃ parts, p.Marshal m = .ok parts ∧
      p.Unmarshal parts.flatten = .ok (.pb m) := by
  refine ⟨[putU16 p.littleEndian id, protoMarshal m], ?_, ?_⟩
  · unfold Processor.Marshal
    rw [hlook]
  · have hflat : [putU16 p.littleEndian id, protoMarshal m].flatten =
        putU16 p.littleEndian id ++ m.body := by
      simp [protoMarshal]
    rw [hflat]
    have hid16 : id < 65536 := by omega
    have hget : getU16 p.littleEndian (putU16 p.littleEndian id ++ m.body) =
        id := by
      cases h : p.littleEndian <;>
        simp [putU16, getU16, h] <;> omega
    have hlen2 : 2 ≤ (putU16 p.littleEndian id ++ m.body).length := by
      cases h : p.littleEndian <;> simp [putU16, h]
    have hdrop : (putU16 p.littleEndian id ++ m.body).drop 2 = m.body := by
      cases h : p.littleEndian <;> simp [putU16, h]
    unfold Processor.Unmarshal
    rw [if_neg (by omega), hget, if_neg (by rw [Nat.mod_eq_of_lt hsz]; omega)]
    simp only [hraw, Bool.false_eq_true, if_false, hdrop, htyp,
      protoUnmarshal]

/-- The processor with type 5 registered (id 0) and no raw handler. -/
def procPlain : Processor :=
  ⟨false, [⟨5, false⟩], [(5, 0)]⟩

/-- C2 witness: the message `⟨5, [9, 8]⟩` round-trips through
`procPlain`. -/
theorem marshal_unmarshal_id_witness :
    ∃ parts, procPlain.Marshal ⟨5, [9, 8]⟩ = .ok parts ∧
      procPlain.Unmarshal parts.flatten = .ok (.pb ⟨5, [9, 8]⟩) :=
  marshal_unmarshal_id procPlain ⟨5, [9, 8]⟩ 0 (by decide) (by decide)
    (by decide) (by decide) (by decide)

namespace ChanRPC

/-- C9: for each synchronous call variant, whenever the id's lookup does
not yield a function of the variant's shape — the id is unregistered, or
the registered function returns the wrong shape (and also when no server
is attached) — the call returns an error and the server's command
channel receives nothing. -/
theorem sync_call_validation (attached : Bool) (srv : Server) (id : Nat)
    (args : List Nat) :
    (lookupFn srv.functions id ≠ some .f0 →
      (Client.Call0 attached srv id args).1 = srv ∧
      (Client.Call0 attached srv id args).2.isSome = true) ∧
    (lookupFn srv.functions id ≠ some .f1 →
      (Client.Call1 attached srv id args).1 = srv ∧
      (Client.Call1 attached srv id args).2.isSome = true) ∧
    (lookupFn srv.functions id ≠ some .fN →
      (Client.CallN attached srv id args).1 = srv ∧
      (Client.CallN attached srv id args).2.isSome = true) := by
  refine ⟨?_, ?_, ?_⟩ <;> intro hne
  · unfold Client.Call0 Client.fCheck
    cases attached
    · simp
    · cases hf : lookupFn srv.functions id with
      | none => simp
      | some f => cases f <;> simp_all
  · unfold Client.Call1 Client.fCheck
    cases attached
    · simp
    · cases hf : lookupFn srv.functions id with
      | none => simp
      | some f => cases f <;> simp_all
  · unfold Client.CallN Client.fCheck
    cases attached
    · simp
    · cases hf : lookupFn srv.functions id with
      | none => simp
      | some f => cases f <;> simp_all

/-- A concrete server with id 1 bound to a single-value function. -/
def srvOne : Server := ⟨[(1, .f1)], [], 4, false⟩

/-- C9 witness: on `srvOne`, `Call0` on id 1 (shape mismatch), `Call1`
on the unregistered id 99, and `CallN` on id 1 (shape mismatch) all
error and leave the command channel untouched. -/
theorem sync_call_validation_witness :
    ((Client.Call0 true srvOne 1 []).1 = srvOne ∧
      (Client.Call0 true srvOne 1 []).2.isSome = true) ∧
    ((Client.Call1 true srvOne 99 []).1 = srvOne ∧
      (Client.Call1 true srvOne 99 []).2.isSome = true) ∧
    ((Client.CallN true srvOne 1 []).1 = srvOne ∧
      (Client.CallN true srvOne 1 []).2.isSome = true) :=
  ⟨(sync_call_validation true srvOne 1 []).1 (by decide),
    (sync_call_validation true srvOne 99 []).2.1 (by decide),
    (sync_call_validation true srvOne 1 []).2.2 (by decide)⟩

/-- C8: when the outstanding async-call count has reached the capacity
of `ChanAsynRet`, `AsynCall` runs the supplied callback immediately with
the "too many calls" error and changes nothing: the client (counter and
async return channel) and the server (command channel) are returned
unchanged. -/
theorem asyncall_too_many (c : Client) (attached : Bool) (srv : Server)
    (id : Nat) (args : List Nat) (cb : CbShape)
    (hcap : c.pendingAsynCall ≥ c.asynCap) :
    c.AsynCall attached srv id args cb =
      ⟨c, srv, [(cb, some "too many calls")]⟩ := by
  unfold Client.AsynCall
  rw [if_pos hcap]

/-- A client whose two outstanding async calls fill its 2-slot
`ChanAsynRet`. -/
def clientBusy : Client := ⟨[], 2, 2⟩

/-- C8 witness: on `clientBusy` (2 outstanding, capacity 2), `AsynCall`
fails fast with "too many calls" and leaves client and server
unchanged. -/
theorem asyncall_too_many_witness :
    clientBusy.AsynCall true srvOne 1 [] .cb1 =
      ⟨clientBusy, srvOne, [(.cb1, some "too many calls")]⟩ :=
  asyncall_too_many clientBusy true srvOne 1 [] .cb1 (by decide)

end ChanRPC

end GServ
